import Mathlib

set_option autoImplicit false

/-!
Verification development for `Code/main.py` (class `ArtifactGenerator`).

The Python program is shallowly embedded as follows.

* JSON values loaded by `json.load` become the inductive type `Value`
  (JSON numbers are modelled as integers; the inputs of this program are
  integer-valued configuration maps).
* Python dictionaries become association lists (`List (α × β)`); the
  dictionary operations `d[k]`, `k in d`, `d[k] = v`, `del d[k]` become
  `lookupKey`, `containsKey`, `dictSet`, `dictErase`.  A Python dict
  corresponds to an association list whose keys are `Nodup`.
* Python `==` / `!=` on JSON values becomes the boolean function `pyEq`
  (deep comparison; booleans compare equal to the integers 0 and 1, which
  is CPython behaviour since `bool` is a subtype of `int`).
* The XML element tree handed to `load_xml` becomes `XNode`; the state of
  `ArtifactGenerator` after `load_xml` (fields `classes` and
  `root_class_name`) becomes `Model`.
* File input/output is cut at the boundary: each `generate_*` method is
  modelled as the pure transformation between its parsed inputs and the
  payload it writes.
-/

/-- JSON-like values as produced by `json.load` in `main.py`: null, booleans,
integers, strings, arrays and objects. -/
inductive Value where
  | null : Value
  | bool : Bool → Value
  | int : Int → Value
  | str : String → Value
  | arr : List Value → Value
  | obj : List (String × Value) → Value

/-- First-occurrence association-list lookup; models the Python dictionary
read `d[k]` / `d.get(k)` (`none` corresponds to `KeyError` / `None`). -/
def lookupKey {α β : Type} [DecidableEq α] : List (α × β) → α → Option β
  | [], _ => none
  | p :: ps, a => if p.1 = a then some p.2 else lookupKey ps a

/-- Models the Python membership test `k in d`. -/
def containsKey {α β : Type} [DecidableEq α] (l : List (α × β)) (a : α) : Bool :=
  (lookupKey l a).isSome

theorem lookupKey_some_mem {α β : Type} [DecidableEq α] {l : List (α × β)} {a : α} {b : β}
    (h : lookupKey l a = some b) : (a, b) ∈ l := by
  induction l with
  | nil => simp [lookupKey] at h
  | cons p ps ih =>
    rw [lookupKey] at h
    split at h
    · next hpa =>
      injection h with hb
      cases p
      simp_all
    · exact List.mem_cons_of_mem _ (ih h)

theorem sizeOf_lt_of_lookupKey {l : List (String × Value)} {a : String} {b : Value}
    (h : lookupKey l a = some b) : sizeOf b < sizeOf l := by
  have hm := List.sizeOf_lt_of_mem (lookupKey_some_mem h)
  have hp : sizeOf (a, b) = 1 + sizeOf a + sizeOf b := rfl
  omega

/-- Python `==` on JSON-like values, as used by `config_data[key] != value`
in `generate_delta_json` and by dict equality.  Structure is compared
deeply; following CPython, a boolean compares equal to the integer 0 / 1;
dictionaries are compared by key set and key-wise value comparison. -/
def pyEq (a b : Value) : Bool :=
  match a, b with
  | .null, .null => true
  | .bool b₁, .bool b₂ => b₁ == b₂
  | .bool b₁, .int n => (if b₁ then (1 : Int) else 0) == n
  | .int n, .bool b₂ => n == (if b₂ then (1 : Int) else 0)
  | .int m, .int n => m == n
  | .str s, .str t => s == t
  | .arr xs, .arr ys =>
      xs.length == ys.length &&
        (xs.zip ys).attach.all (fun p => pyEq p.1.1 p.1.2)
  | .obj fs, .obj gs =>
      ((fs.map Prod.fst).all fun k =>
        match hf : lookupKey fs k with
        | some v =>
          match lookupKey gs k with
          | some w => pyEq v w
          | none => false
        | none => false) &&
      gs.all (fun q => (lookupKey fs q.1).isSome)
  | _, _ => false
termination_by sizeOf a
decreasing_by
  · have h1 : p.1.1 ∈ xs := (List.of_mem_zip p.2).1
    have h2 := List.sizeOf_lt_of_mem h1
    simp only [Value.arr.sizeOf_spec]
    omega
  · have h2 := sizeOf_lt_of_lookupKey hf
    simp only [Value.obj.sizeOf_spec]
    omega

/-- The delta payload written by `generate_delta_json` and read back by
`generate_res_patched_config_json`: `additions` is a list of
`{key, value}` records, `deletions` a list of keys, `updates` a list of
`{key, from, to}` records (here: key, from-value, to-value triples). -/
structure Delta where
  additions : List (String × Value)
  deletions : List String
  updates : List (String × Value × Value)

/-- A flat configuration map as loaded from `config.json` /
`patched_config.json`. -/
abbrev ConfigMap := List (String × Value)

/-- The in-memory diff computation of `generate_delta_json`
(`main.py` lines 262-280): iterate the patched map, recording keys absent
from the base map as additions and keys with `!=` values as updates; then
iterate the base map, recording keys absent from the patched map as
deletions. -/
def generate_delta (config_data patched_config_data : ConfigMap) : Delta :=
  { additions := patched_config_data.filter (fun p => !(containsKey config_data p.1)),
    deletions :=
      (config_data.filter (fun p => !(containsKey patched_config_data p.1))).map Prod.fst,
    updates := patched_config_data.filterMap (fun p =>
      match lookupKey config_data p.1 with
      | some v => if pyEq v p.2 then none else some (p.1, v, p.2)
      | none => none) }

/-- Keys present in both maps whose values compare `==`: the complement
class (the keys `generate_delta_json` puts in none of its three lists). -/
def unchangedKeys (config_data patched_config_data : ConfigMap) : List String :=
  (patched_config_data.filter (fun p =>
    match lookupKey config_data p.1 with
    | some v => pyEq v p.2
    | none => false)).map Prod.fst

/-- Python dictionary assignment `d[k] = v`: overwrite the value in place if
the key is present, otherwise append the pair at the end. -/
def dictSet {α β : Type} [DecidableEq α] : List (α × β) → α → β → List (α × β)
  | [], a, b => [(a, b)]
  | p :: ps, a, b => if p.1 = a then (a, b) :: ps else p :: dictSet ps a b

/-- Python dictionary deletion `del d[k]` (on a dict the key occurs at most
once; on the association list we drop every pair with that key). -/
def dictErase {α β : Type} [DecidableEq α] : List (α × β) → α → List (α × β)
  | [], _ => []
  | p :: ps, a => if p.1 = a then dictErase ps a else p :: dictErase ps a

/-- One iteration of the deletions loop of `generate_res_patched_config_json`
(lines 316-318): `if key in res: del res[key]`. -/
def delStep (m : ConfigMap) (k : String) : ConfigMap :=
  if containsKey m k then dictErase m k else m

/-- The deletions loop of `generate_res_patched_config_json`. -/
def apply_deletions (m : ConfigMap) (ks : List String) : ConfigMap :=
  ks.foldl delStep m

/-- The additions loop of `generate_res_patched_config_json` (lines
321-322): `res[item["key"]] = item["value"]`. -/
def apply_additions (m : ConfigMap) (ps : List (String × Value)) : ConfigMap :=
  ps.foldl (fun m p => dictSet m p.1 p.2) m

/-- Final in-memory value of `res_patched_config` in
`generate_res_patched_config_json` (lines 313-333).  The file-writing
`try` block and a bare `return False` are indented inside the updates
loop, so the function returns during the first updates iteration: at most
the first element of `updates` is ever applied. -/
def applyMem (config_data : ConfigMap) (d : Delta) : ConfigMap :=
  let res := apply_additions (apply_deletions config_data d.deletions) d.additions
  match d.updates with
  | [] => res
  | u :: _ => dictSet res u.1 u.2.2

/-- Observable behaviour of `generate_res_patched_config_json` after its
inputs have been read: the payload written to `res_patched_config.json`
(`none` when the function returns without writing) and the returned
boolean.  With an empty updates list the loop body never runs, nothing is
written, and the function falls through to `return True`; with a
non-empty updates list the first iteration applies that single update,
writes the file and hits the loop-level `return False`. -/
def generate_res_patched_config (config_data : ConfigMap) (d : Delta) :
    Option ConfigMap × Bool :=
  let res := apply_additions (apply_deletions config_data d.deletions) d.additions
  match d.updates with
  | [] => (none, true)
  | u :: _ => (some (dictSet res u.1 u.2.2), false)

theorem apply_deletions_cons (m : ConfigMap) (k0 : String) (ks : List String) :
    apply_deletions m (k0 :: ks) = apply_deletions (delStep m k0) ks := rfl

theorem apply_additions_cons (m : ConfigMap) (p : String × Value) (ps : List (String × Value)) :
    apply_additions m (p :: ps) = apply_additions (dictSet m p.1 p.2) ps := rfl

theorem lookupKey_dictSet {α β : Type} [DecidableEq α] (l : List (α × β)) (a a' : α) (b : β) :
    lookupKey (dictSet l a b) a' = if a = a' then some b else lookupKey l a' := by
  induction l with
  | nil => simp [dictSet, lookupKey]
  | cons p ps ih =>
    by_cases hp : p.1 = a
    · subst hp
      simp only [dictSet, if_pos rfl]
      by_cases h : p.1 = a' <;> simp [lookupKey, h]
    · simp only [dictSet, if_neg hp, lookupKey, ih]
      by_cases h : p.1 = a'
      · have ha : ¬ a = a' := fun hh => hp (hh ▸ h)
        simp [h, ha]
      · simp [h]

theorem lookupKey_dictErase {α β : Type} [DecidableEq α] (l : List (α × β)) (a a' : α) :
    lookupKey (dictErase l a) a' = if a = a' then none else lookupKey l a' := by
  induction l with
  | nil => simp [dictErase, lookupKey]
  | cons p ps ih =>
    by_cases hp : p.1 = a
    · subst hp
      simp only [dictErase, eq_self_iff_true, if_true, ih]
      by_cases h : p.1 = a' <;> simp [lookupKey, h]
    · simp only [dictErase, if_neg hp, lookupKey, ih]
      by_cases h : p.1 = a'
      · have ha : ¬ a = a' := fun hh => hp (hh ▸ h)
        simp [h, ha]
      · simp [h]

theorem lookupKey_delStep (m : ConfigMap) (k k' : String) :
    lookupKey (delStep m k) k' = if k = k' then none else lookupKey m k' := by
  rw [delStep]
  by_cases hc : containsKey m k
  · rw [if_pos hc, lookupKey_dictErase]
  · rw [if_neg hc]
    by_cases h : k = k'
    · subst h
      cases hl : lookupKey m k with
      | none => simp [hl]
      | some v => exact absurd (by simp [containsKey, hl]) hc
    · simp [h]

theorem lookupKey_apply_deletions (m : ConfigMap) (ks : List String) (k : String) :
    lookupKey (apply_deletions m ks) k = if k ∈ ks then none else lookupKey m k := by
  induction ks generalizing m with
  | nil => simp [apply_deletions]
  | cons k0 ks ih =>
    rw [apply_deletions_cons, ih]
    by_cases hks : k ∈ ks
    · simp [hks]
    · by_cases h0 : k = k0
      · subst h0; simp [hks, lookupKey_delStep]
      · have hk0 : ¬ k0 = k := fun hh => h0 hh.symm
        simp [hks, h0, hk0, lookupKey_delStep]

/-- Last-occurrence association lookup, used to describe the cumulative
effect of the additions loop (later assignments overwrite earlier ones). -/
def assocLast : List (String × Value) → String → Option Value
  | [], _ => none
  | p :: ps, k =>
    match assocLast ps k with
    | some v => some v
    | none => if p.1 = k then some p.2 else none

theorem lookupKey_apply_additions (m : ConfigMap) (ps : List (String × Value)) (k : String) :
    lookupKey (apply_additions m ps) k =
      match assocLast ps k with
      | some v => some v
      | none => lookupKey m k := by
  induction ps generalizing m with
  | nil => simp [apply_additions, assocLast]
  | cons p ps ih =>
    rw [apply_additions_cons, ih, assocLast]
    cases h : assocLast ps k with
    | some v => simp
    | none =>
      simp only [lookupKey_dictSet]
      by_cases hp : p.1 = k <;> simp [hp]

theorem lookupKey_applyMem (config_data : ConfigMap) (d : Delta) (k : String) :
    lookupKey (applyMem config_data d) k =
      match d.updates with
      | [] =>
        (match assocLast d.additions k with
         | some v => some v
         | none => if k ∈ d.deletions then none else lookupKey config_data k)
      | u :: _ =>
        if u.1 = k then some u.2.2 else
          (match assocLast d.additions k with
           | some v => some v
           | none => if k ∈ d.deletions then none else lookupKey config_data k) := by
  cases hu : d.updates with
  | nil => simp [applyMem, hu, lookupKey_apply_additions, lookupKey_apply_deletions]
  | cons u us =>
    simp [applyMem, hu, lookupKey_dictSet, lookupKey_apply_additions,
      lookupKey_apply_deletions]

/-- C2: patch-apply idempotence.  For every base map and every delta whose
additions-keys and updates-keys are disjoint from its deletions-keys,
applying the delta twice yields the same map (same keys, same values) as
applying it once.  The in-memory transformation of
`generate_res_patched_config_json` is `applyMem`; maps are compared
pointwise, which is Python dict equality up to value comparison. -/
theorem applyMem_idempotent (base : ConfigMap) (d : Delta)
    (_hadd : ∀ p ∈ d.additions, p.1 ∉ d.deletions)
    (_hupd : ∀ u ∈ d.updates, u.1 ∉ d.deletions) :
    ∀ k, lookupKey (applyMem (applyMem base d) d) k = lookupKey (applyMem base d) k := by
  intro k
  rw [lookupKey_applyMem (applyMem base d) d k, lookupKey_applyMem base d k]
  cases hu : d.updates with
  | nil =>
    cases ha : assocLast d.additions k with
    | some v => simp
    | none =>
      by_cases hd : k ∈ d.deletions
      · simp [hd]
      · simp [hd, lookupKey_applyMem base d k, hu, ha]
  | cons u us =>
    by_cases hk : u.1 = k
    · simp [hk]
    · cases ha : assocLast d.additions k with
      | some v => simp [hk]
      | none =>
        by_cases hd : k ∈ d.deletions
        · simp [hk, hd]
        · simp [hk, hd, lookupKey_applyMem base d k, hu, ha]

/-- Witness for `applyMem_idempotent` at a concrete base map and delta. -/
theorem applyMem_idempotent_witness :
    lookupKey
        (applyMem
          (applyMem [("a", Value.int 1), ("b", Value.int 2)]
            ⟨[("c", Value.int 4)], ["a"], [("b", Value.int 2, Value.int 3)]⟩)
          ⟨[("c", Value.int 4)], ["a"], [("b", Value.int 2, Value.int 3)]⟩)
        "b" =
      lookupKey
        (applyMem [("a", Value.int 1), ("b", Value.int 2)]
          ⟨[("c", Value.int 4)], ["a"], [("b", Value.int 2, Value.int 3)]⟩)
        "b" :=
  applyMem_idempotent [("a", Value.int 1), ("b", Value.int 2)]
    ⟨[("c", Value.int 4)], ["a"], [("b", Value.int 2, Value.int 3)]⟩
    (by decide) (by decide) "b"

/-- C10: observable behaviour of `generate_res_patched_config_json` on
readable, well-formed inputs.  The function returns `True` exactly when
the delta's updates list is empty, in which case nothing is written; with
a non-empty updates list it writes, during the first loop iteration, the
base map with all deletions and additions but only the first update
applied, and returns `False`. -/
theorem generate_res_patched_config_behaviour (config_data : ConfigMap) (d : Delta) :
    generate_res_patched_config config_data d =
      match d.updates with
      | [] => (none, true)
      | u :: _ =>
        (some (dictSet (apply_additions (apply_deletions config_data d.deletions) d.additions)
          u.1 u.2.2), false) := by
  cases hu : d.updates <;> simp [generate_res_patched_config, hu]

/-- C1: the delta round-trip law fails on the code.  For base
`{"a": 1, "b": 2}` and target `{"a": 5, "b": 7}` the computed delta has
two updates; `generate_res_patched_config_json` writes the map with only
the first update applied (`{"a": 5, "b": 2}`) and returns `False`, so the
written map differs from the target at key `"b"`. -/
theorem roundtrip_fails_at_two_updates :
    generate_res_patched_config [("a", Value.int 1), ("b", Value.int 2)]
        (generate_delta [("a", Value.int 1), ("b", Value.int 2)]
          [("a", Value.int 5), ("b", Value.int 7)]) =
      (some [("a", Value.int 5), ("b", Value.int 2)], false) ∧
      lookupKey [("a", Value.int 5), ("b", Value.int 2)] "b" ≠
        lookupKey [("a", Value.int 5), ("b", Value.int 7)] "b" := by
  constructor
  · simp [generate_delta, generate_res_patched_config, apply_deletions, apply_additions,
      delStep, dictSet, containsKey, lookupKey, pyEq]
  · simp [lookupKey]

/-- C4: the malformed-delta resolution rule fails on the code.  For the
delta with additions `[{"k": 1}]` and updates
`[{x: 0 -> 0}, {k: 1 -> 2}]` over the empty base map, the key `"k"`
appears in both the additions and the updates list, yet the written map
keeps the additions value `1` for `"k"`: the misindented `return False`
stops the updates loop after its first iteration, so the update of `"k"`
to `2` is never applied. -/
theorem update_after_addition_not_applied :
    generate_res_patched_config []
        ⟨[("k", Value.int 1)], [],
          [("x", Value.int 0, Value.int 0), ("k", Value.int 1, Value.int 2)]⟩ =
      (some [("k", Value.int 1), ("x", Value.int 0)], false) ∧
      lookupKey [("k", Value.int 1), ("x", Value.int 0)] "k" ≠ some (Value.int 2) := by
  constructor
  · simp [generate_res_patched_config, apply_deletions, apply_additions, delStep,
      dictSet, containsKey, lookupKey]
  · simp [lookupKey]

/-- Dictionary state of `generate_res_patched_config_json` while patching:
the map loaded from `config.json` (`config_data`) and the working copy
`res_patched_config`, initialised with `config_data.copy()` (line 313).
The JSON values themselves are immutable here: no statement of the
function mutates a value in place, so a shallow copy separates the two
dictionaries completely. -/
structure ApplyState where
  config_data : ConfigMap
  res_patched_config : ConfigMap

/-- The two statement forms the patching loops execute.  Both target the
working copy only. -/
inductive ApplyOp where
  | delKey : String → ApplyOp
  | setKey : String → Value → ApplyOp

/-- Statement sequence executed on the dictionaries for a given delta: the
guarded deletions (lines 316-318), the additions (lines 321-322) and —
because of the in-loop `return False` — at most the first update
(line 324). -/
def opsOf (d : Delta) : List ApplyOp :=
  d.deletions.map ApplyOp.delKey
    ++ d.additions.map (fun p => ApplyOp.setKey p.1 p.2)
    ++ (match d.updates with
        | [] => []
        | u :: _ => [ApplyOp.setKey u.1 u.2.2])

/-- Execution of one statement: `if k in res: del res[k]` or
`res[k] = v`; both only rebind keys of `res_patched_config`. -/
def applyStep (s : ApplyState) : ApplyOp → ApplyState
  | .delKey k =>
    { s with res_patched_config := delStep s.res_patched_config k }
  | .setKey k v =>
    { s with res_patched_config := dictSet s.res_patched_config k v }

/-- Execution of a statement sequence. -/
def runOps (s : ApplyState) (ops : List ApplyOp) : ApplyState :=
  ops.foldl applyStep s

theorem runOps_cons (s : ApplyState) (op : ApplyOp) (ops : List ApplyOp) :
    runOps s (op :: ops) = runOps (applyStep s op) ops := rfl

theorem runOps_config_data (ops : List ApplyOp) :
    ∀ s : ApplyState, (runOps s ops).config_data = s.config_data := by
  induction ops with
  | nil => intro s; rfl
  | cons op ops ih =>
    intro s
    rw [runOps_cons, ih]
    cases op <;> rfl

theorem runOps_dels (ks : List String) :
    ∀ s : ApplyState,
      runOps s (ks.map ApplyOp.delKey) =
        ⟨s.config_data, apply_deletions s.res_patched_config ks⟩ := by
  induction ks with
  | nil => intro s; rfl
  | cons k ks ih =>
    intro s
    rw [List.map_cons, runOps_cons, ih, apply_deletions_cons]
    rfl

theorem runOps_sets (ps : List (String × Value)) :
    ∀ s : ApplyState,
      runOps s (ps.map fun p => ApplyOp.setKey p.1 p.2) =
        ⟨s.config_data, apply_additions s.res_patched_config ps⟩ := by
  induction ps with
  | nil => intro s; rfl
  | cons p ps ih =>
    intro s
    rw [List.map_cons, runOps_cons, ih, apply_additions_cons]
    rfl

/-- Coherence of the statement-level model with the functional model: the
working copy after executing the statement sequence is `applyMem`. -/
theorem runOps_res_eq_applyMem (base : ConfigMap) (d : Delta) :
    (runOps ⟨base, base⟩ (opsOf d)).res_patched_config = applyMem base d := by
  rw [opsOf, runOps, List.foldl_append, List.foldl_append]
  have h1 := runOps_dels d.deletions ⟨base, base⟩
  rw [runOps] at h1
  rw [h1]
  have h2 := runOps_sets d.additions
    ⟨base, apply_deletions base d.deletions⟩
  rw [runOps] at h2
  rw [h2]
  cases hu : d.updates with
  | nil => simp [applyMem, hu]
  | cons u us => simp [applyMem, hu, runOps, applyStep]

/-- C6: patch application does not mutate the base map.  Starting from the
state in which `res_patched_config` is a copy of `config_data`, every
statement `generate_res_patched_config_json` executes rebinds keys of the
working copy only, so after the whole sequence the base map is unchanged. -/
theorem apply_does_not_mutate_base (base : ConfigMap) (d : Delta) :
    (runOps ⟨base, base⟩ (opsOf d)).config_data = base :=
  runOps_config_data (opsOf d) ⟨base, base⟩

theorem containsKey_of_mem {α β : Type} [DecidableEq α] {l : List (α × β)} {p : α × β}
    (h : p ∈ l) : containsKey l p.1 = true := by
  induction l with
  | nil => simp at h
  | cons q qs ih =>
    rcases List.mem_cons.mp h with h1 | h1
    · have hq : q.1 = p.1 := by rw [h1]
      simp [containsKey, lookupKey, hq]
    · by_cases hq : q.1 = p.1
      · simp [containsKey, lookupKey, hq]
      · simpa [containsKey, lookupKey, hq] using ih h1

theorem lookup_isSome_of_containsKey {α β : Type} [DecidableEq α] {l : List (α × β)} {a : α}
    (h : containsKey l a = true) : ∃ b, lookupKey l a = some b := by
  rw [containsKey] at h
  cases hl : lookupKey l a with
  | none => rw [hl] at h; simp at h
  | some b => exact ⟨b, rfl⟩

theorem lookup_eq_none_of_not_containsKey {α β : Type} [DecidableEq α] {l : List (α × β)}
    {a : α} (h : containsKey l a = false) : lookupKey l a = none := by
  rw [containsKey] at h
  cases hl : lookupKey l a with
  | none => rfl
  | some b => rw [hl] at h; simp at h

theorem lookupKey_eq_of_mem_nodup {α β : Type} [DecidableEq α] {l : List (α × β)} {a : α}
    {b : β} (hn : (l.map Prod.fst).Nodup) (h : (a, b) ∈ l) : lookupKey l a = some b := by
  induction l with
  | nil => simp at h
  | cons p ps ih =>
    rw [List.map_cons, List.nodup_cons] at hn
    rcases List.mem_cons.mp h with h1 | h1
    · rw [lookupKey, ← h1]
      simp
    · rw [lookupKey]
      by_cases hp : p.1 = a
      · exfalso
        apply hn.1
        rw [hp]
        exact List.mem_map.mpr ⟨(a, b), h1, rfl⟩
      · simpa [hp] using ih hn.2 h1

theorem additions_keys_iff (config_data patched_config_data : ConfigMap) (k : String) :
    k ∈ (generate_delta config_data patched_config_data).additions.map Prod.fst ↔
      containsKey patched_config_data k = true ∧ containsKey config_data k = false := by
  constructor
  · intro h
    rcases List.mem_map.mp h with ⟨p, hp, hpk⟩
    rcases List.mem_filter.mp hp with ⟨hmem, hq⟩
    subst hpk
    exact ⟨containsKey_of_mem hmem, by simpa using hq⟩
  · rintro ⟨hp, hc⟩
    obtain ⟨b, hb⟩ := lookup_isSome_of_containsKey hp
    refine List.mem_map.mpr ⟨(k, b), List.mem_filter.mpr ⟨lookupKey_some_mem hb, ?_⟩, rfl⟩
    simp [hc]

theorem deletions_keys_iff (config_data patched_config_data : ConfigMap) (k : String) :
    k ∈ (generate_delta config_data patched_config_data).deletions ↔
      containsKey config_data k = true ∧ containsKey patched_config_data k = false := by
  constructor
  · intro h
    rcases List.mem_map.mp h with ⟨p, hp, hpk⟩
    rcases List.mem_filter.mp hp with ⟨hmem, hq⟩
    subst hpk
    exact ⟨containsKey_of_mem hmem, by simpa using hq⟩
  · rintro ⟨hp, hc⟩
    obtain ⟨b, hb⟩ := lookup_isSome_of_containsKey hp
    refine List.mem_map.mpr ⟨(k, b), List.mem_filter.mpr ⟨lookupKey_some_mem hb, ?_⟩, rfl⟩
    simp [hc]

theorem updates_keys_iff (config_data patched_config_data : ConfigMap)
    (ht : (patched_config_data.map Prod.fst).Nodup) (k : String) :
    k ∈ (generate_delta config_data patched_config_data).updates.map (fun u => u.1) ↔
      ∃ v w, lookupKey config_data k = some v ∧
        lookupKey patched_config_data k = some w ∧ pyEq v w = false := by
  constructor
  · intro h
    rcases List.mem_map.mp h with ⟨u, hu, huk⟩
    rcases List.mem_filterMap.mp hu with ⟨p, hmem, hf⟩
    cases hl : lookupKey config_data p.1 with
    | none => rw [hl] at hf; simp at hf
    | some v =>
      rw [hl] at hf
      have hf' : (if pyEq v p.2 = true then (none : Option (String × Value × Value))
          else some (p.1, v, p.2)) = some u := hf
      by_cases he : pyEq v p.2 = true
      · rw [if_pos he] at hf'; simp at hf'
      · rw [if_neg he] at hf'
        injection hf' with hf'
        subst hf'
        subst huk
        refine ⟨v, p.2, hl, ?_, by simpa using he⟩
        have := lookupKey_eq_of_mem_nodup ht (show (p.1, p.2) ∈ _ from by simpa using hmem)
        simpa using this
  · rintro ⟨v, w, hv, hw, hne⟩
    refine List.mem_map.mpr ⟨(k, v, w), List.mem_filterMap.mpr ⟨(k, w),
      lookupKey_some_mem hw, ?_⟩, rfl⟩
    simp [hv, hne]

theorem unchanged_keys_iff (config_data patched_config_data : ConfigMap)
    (ht : (patched_config_data.map Prod.fst).Nodup) (k : String) :
    k ∈ unchangedKeys config_data patched_config_data ↔
      ∃ v w, lookupKey config_data k = some v ∧
        lookupKey patched_config_data k = some w ∧ pyEq v w = true := by
  constructor
  · intro h
    rcases List.mem_map.mp h with ⟨p, hp, hpk⟩
    rcases List.mem_filter.mp hp with ⟨hmem, hq⟩
    subst hpk
    cases hl : lookupKey config_data p.1 with
    | none =>
      rw [hl] at hq
      have hq' : false = true := hq
      simp at hq'
    | some v =>
      rw [hl] at hq
      have hq' : pyEq v p.2 = true := hq
      refine ⟨v, p.2, rfl, ?_, hq'⟩
      have := lookupKey_eq_of_mem_nodup ht (show (p.1, p.2) ∈ _ from by simpa using hmem)
      simpa using this
  · rintro ⟨v, w, hv, hw, he⟩
    refine List.mem_map.mpr ⟨(k, w), List.mem_filter.mpr ⟨lookupKey_some_mem hw, ?_⟩, rfl⟩
    simp [hv, he]

/-- C3: partition property of the computed delta.  For maps with distinct
keys (as Python dicts are), every key of the union of the two key sets
falls into exactly one of the four classes: unchanged, additions,
deletions, updates. -/
theorem delta_partition (config_data patched_config_data : ConfigMap)
    (hb : (config_data.map Prod.fst).Nodup)
    (ht : (patched_config_data.map Prod.fst).Nodup)
    (k : String)
    (hk : containsKey config_data k = true ∨ containsKey patched_config_data k = true) :
    (k ∈ (generate_delta config_data patched_config_data).additions.map Prod.fst ∧
      k ∉ (generate_delta config_data patched_config_data).deletions ∧
      k ∉ (generate_delta config_data patched_config_data).updates.map (fun u => u.1) ∧
      k ∉ unchangedKeys config_data patched_config_data) ∨
    (k ∈ (generate_delta config_data patched_config_data).deletions ∧
      k ∉ (generate_delta config_data patched_config_data).additions.map Prod.fst ∧
      k ∉ (generate_delta config_data patched_config_data).updates.map (fun u => u.1) ∧
      k ∉ unchangedKeys config_data patched_config_data) ∨
    (k ∈ (generate_delta config_data patched_config_data).updates.map (fun u => u.1) ∧
      k ∉ (generate_delta config_data patched_config_data).additions.map Prod.fst ∧
      k ∉ (generate_delta config_data patched_config_data).deletions ∧
      k ∉ unchangedKeys config_data patched_config_data) ∨
    (k ∈ unchangedKeys config_data patched_config_data ∧
      k ∉ (generate_delta config_data patched_config_data).additions.map Prod.fst ∧
      k ∉ (generate_delta config_data patched_config_data).deletions ∧
      k ∉ (generate_delta config_data patched_config_data).updates.map (fun u => u.1)) := by
  by_cases hc : containsKey config_data k = true
  · by_cases hp : containsKey patched_config_data k = true
    · obtain ⟨v, hv⟩ := lookup_isSome_of_containsKey hc
      obtain ⟨w, hw⟩ := lookup_isSome_of_containsKey hp
      by_cases he : pyEq v w = true
      · refine Or.inr (Or.inr (Or.inr ⟨?_, ?_, ?_, ?_⟩))
        · exact (unchanged_keys_iff _ _ ht k).mpr ⟨v, w, hv, hw, he⟩
        · intro hA
          rcases (additions_keys_iff _ _ k).mp hA with ⟨_, hc0⟩
          rw [hc0] at hc
          exact Bool.noConfusion hc
        · intro hD
          rcases (deletions_keys_iff _ _ k).mp hD with ⟨_, hp0⟩
          rw [hp0] at hp
          exact Bool.noConfusion hp
        · intro hU
          rcases (updates_keys_iff _ _ ht k).mp hU with ⟨v', w', hv', hw', hne⟩
          rw [hv] at hv'
          injection hv' with hv'
          rw [hw] at hw'
          injection hw' with hw'
          subst hv'
          subst hw'
          rw [he] at hne
          exact Bool.noConfusion hne
      · refine Or.inr (Or.inr (Or.inl ⟨?_, ?_, ?_, ?_⟩))
        · exact (updates_keys_iff _ _ ht k).mpr
            ⟨v, w, hv, hw, by simpa using he⟩
        · intro hA
          rcases (additions_keys_iff _ _ k).mp hA with ⟨_, hc0⟩
          rw [hc0] at hc
          exact Bool.noConfusion hc
        · intro hD
          rcases (deletions_keys_iff _ _ k).mp hD with ⟨_, hp0⟩
          rw [hp0] at hp
          exact Bool.noConfusion hp
        · intro hN
          rcases (unchanged_keys_iff _ _ ht k).mp hN with ⟨v', w', hv', hw', he'⟩
          rw [hv] at hv'
          injection hv' with hv'
          rw [hw] at hw'
          injection hw' with hw'
          subst hv'
          subst hw'
          exact he he'
    · have hp' : containsKey patched_config_data k = false := by
        cases hb2 : containsKey patched_config_data k
        · rfl
        · exact absurd hb2 hp
      refine Or.inr (Or.inl ⟨?_, ?_, ?_, ?_⟩)
      · exact (deletions_keys_iff _ _ k).mpr ⟨hc, hp'⟩
      · intro hA
        rcases (additions_keys_iff _ _ k).mp hA with ⟨hp0, _⟩
        rw [hp0] at hp'
        exact Bool.noConfusion hp'
      · intro hU
        rcases (updates_keys_iff _ _ ht k).mp hU with ⟨v', w', _, hw', _⟩
        rw [lookup_eq_none_of_not_containsKey hp'] at hw'
        exact Option.noConfusion hw'
      · intro hN
        rcases (unchanged_keys_iff _ _ ht k).mp hN with ⟨v', w', _, hw', _⟩
        rw [lookup_eq_none_of_not_containsKey hp'] at hw'
        exact Option.noConfusion hw'
  · have hc' : containsKey config_data k = false := by
      cases hb2 : containsKey config_data k
      · rfl
      · exact absurd hb2 hc
    have hp : containsKey patched_config_data k = true := by
      rcases hk with h | h
      · rw [h] at hc'; exact Bool.noConfusion hc'
      · exact h
    refine Or.inl ⟨?_, ?_, ?_, ?_⟩
    · exact (additions_keys_iff _ _ k).mpr ⟨hp, hc'⟩
    · intro hD
      rcases (deletions_keys_iff _ _ k).mp hD with ⟨hc0, _⟩
      rw [hc0] at hc'
      exact Bool.noConfusion hc'
    · intro hU
      rcases (updates_keys_iff _ _ ht k).mp hU with ⟨v', w', hv', _, _⟩
      rw [lookup_eq_none_of_not_containsKey hc'] at hv'
      exact Option.noConfusion hv'
    · intro hN
      rcases (unchanged_keys_iff _ _ ht k).mp hN with ⟨v', w', hv', _, _⟩
      rw [lookup_eq_none_of_not_containsKey hc'] at hv'
      exact Option.noConfusion hv'

/-- Witness for `delta_partition` at the concrete pair
base `{"a":1, "b":2}`, patched `{"b":3, "c":4}`, key `"b"`. -/
theorem delta_partition_witness :
    ("b" ∈ (generate_delta [("a", Value.int 1), ("b", Value.int 2)]
        [("b", Value.int 3), ("c", Value.int 4)]).additions.map Prod.fst ∧
      "b" ∉ (generate_delta [("a", Value.int 1), ("b", Value.int 2)]
        [("b", Value.int 3), ("c", Value.int 4)]).deletions ∧
      "b" ∉ (generate_delta [("a", Value.int 1), ("b", Value.int 2)]
        [("b", Value.int 3), ("c", Value.int 4)]).updates.map (fun u => u.1) ∧
      "b" ∉ unchangedKeys [("a", Value.int 1), ("b", Value.int 2)]
        [("b", Value.int 3), ("c", Value.int 4)]) ∨
    ("b" ∈ (generate_delta [("a", Value.int 1), ("b", Value.int 2)]
        [("b", Value.int 3), ("c", Value.int 4)]).deletions ∧
      "b" ∉ (generate_delta [("a", Value.int 1), ("b", Value.int 2)]
        [("b", Value.int 3), ("c", Value.int 4)]).additions.map Prod.fst ∧
      "b" ∉ (generate_delta [("a", Value.int 1), ("b", Value.int 2)]
        [("b", Value.int 3), ("c", Value.int 4)]).updates.map (fun u => u.1) ∧
      "b" ∉ unchangedKeys [("a", Value.int 1), ("b", Value.int 2)]
        [("b", Value.int 3), ("c", Value.int 4)]) ∨
    ("b" ∈ (generate_delta [("a", Value.int 1), ("b", Value.int 2)]
        [("b", Value.int 3), ("c", Value.int 4)]).updates.map (fun u => u.1) ∧
      "b" ∉ (generate_delta [("a", Value.int 1), ("b", Value.int 2)]
        [("b", Value.int 3), ("c", Value.int 4)]).additions.map Prod.fst ∧
      "b" ∉ (generate_delta [("a", Value.int 1), ("b", Value.int 2)]
        [("b", Value.int 3), ("c", Value.int 4)]).deletions ∧
      "b" ∉ unchangedKeys [("a", Value.int 1), ("b", Value.int 2)]
        [("b", Value.int 3), ("c", Value.int 4)]) ∨
    ("b" ∈ unchangedKeys [("a", Value.int 1), ("b", Value.int 2)]
        [("b", Value.int 3), ("c", Value.int 4)] ∧
      "b" ∉ (generate_delta [("a", Value.int 1), ("b", Value.int 2)]
        [("b", Value.int 3), ("c", Value.int 4)]).additions.map Prod.fst ∧
      "b" ∉ (generate_delta [("a", Value.int 1), ("b", Value.int 2)]
        [("b", Value.int 3), ("c", Value.int 4)]).deletions ∧
      "b" ∉ (generate_delta [("a", Value.int 1), ("b", Value.int 2)]
        [("b", Value.int 3), ("c", Value.int 4)]).updates.map (fun u => u.1)) :=
  delta_partition [("a", Value.int 1), ("b", Value.int 2)]
    [("b", Value.int 3), ("c", Value.int 4)]
    (by simp) (by simp) "b" (Or.inl (by simp [containsKey, lookupKey]))

/-- C5 counterexample: the integer `1` and the boolean `true` are
structurally different values, yet `generate_delta_json` treats the pair
as unchanged — CPython `==` identifies `True` with `1` — so the key is
reported in none of the three delta lists. -/
theorem int_bool_pair_not_reported :
    (generate_delta [("flag", Value.int 1)] [("flag", Value.bool true)]).updates = [] ∧
    (generate_delta [("flag", Value.int 1)] [("flag", Value.bool true)]).additions = [] ∧
    (generate_delta [("flag", Value.int 1)] [("flag", Value.bool true)]).deletions = [] ∧
    Value.int 1 ≠ Value.bool true := by
  refine ⟨?_, ?_, ?_, ?_⟩
  · simp [generate_delta, containsKey, lookupKey, pyEq]
  · simp [generate_delta, containsKey, lookupKey]
  · simp [generate_delta, containsKey, lookupKey]
  · intro h
    exact Value.noConfusion h

/-- C5 (amended): value comparison in `generate_delta_json` is deep
comparison without string/number coercion — in particular a key holding
an integer in the base map and a string in the patched map is always
reported in the updates list; only the boolean/integer identification of
the host language (`True == 1`, `False == 0`) deviates from purely
structural equality. -/
theorem int_vs_string_reported_as_update (config_data patched_config_data : ConfigMap)
    (k : String) (n : Int) (s : String)
    (hc : lookupKey config_data k = some (Value.int n))
    (hp : lookupKey patched_config_data k = some (Value.str s)) :
    (k, Value.int n, Value.str s) ∈ (generate_delta config_data patched_config_data).updates := by
  have hmem : (k, Value.str s) ∈ patched_config_data := lookupKey_some_mem hp
  refine List.mem_filterMap.mpr ⟨(k, Value.str s), hmem, ?_⟩
  simp [hc, pyEq]

/-- Witness for `int_vs_string_reported_as_update`: base `{"k": 1}`,
patched `{"k": "1"}`. -/
theorem int_vs_string_reported_witness :
    ("k", Value.int 1, Value.str "1") ∈
      (generate_delta [("k", Value.int 1)] [("k", Value.str "1")]).updates :=
  int_vs_string_reported_as_update [("k", Value.int 1)] [("k", Value.str "1")] "k" 1 "1"
    (by simp [lookupKey]) (by simp [lookupKey])

/-- A parsed XML element as `xml.etree.ElementTree` hands it to `load_xml`:
tag, attribute dictionary, child elements. -/
inductive XNode where
  | mk : String → List (String × String) → List XNode → XNode

/-- Tag of an element. -/
def XNode.tag : XNode → String
  | .mk t _ _ => t

/-- Attribute dictionary of an element. -/
def XNode.attrs : XNode → List (String × String)
  | .mk _ a _ => a

/-- Child elements. -/
def XNode.children : XNode → List XNode
  | .mk _ _ c => c

/-- Models `element.get(k)`: the attribute value, or `None` when absent. -/
def attrGet (x : XNode) (k : String) : Option String :=
  lookupKey x.attrs k

/-- Entry of a class's aggregation list as built by `load_xml`
(lines 60-64): target class name and the two multiplicities, each as
returned by `element.get`. -/
structure AggregationInfo where
  target : Option String
  sourceMultiplicity : Option String
  targetMultiplicity : Option String

/-- Per-class record stored in `self.classes` (lines 40-45). -/
structure ClassInfo where
  isRoot : Bool
  documentation : Option String
  attributes : List (Option String × Option String)
  aggregations : List AggregationInfo

/-- State of the generator once `load_xml` has run: the class dictionary
and the recorded root class name.  Keys are `Option String` because
`element.get("name")` may return `None`, which Python happily uses as a
dictionary key. -/
structure Model where
  classes : List (Option String × ClassInfo)
  root_class_name : Option String

/-- The exception escaping the `for` loop of `load_xml`: the lookup
`self.classes[source]` with an unregistered source raises `KeyError`. -/
inductive PyErr where
  | keyError : Option String → PyErr

/-- The nested loop of `load_xml` collecting `Attribute` children of a
`Class` element (lines 49-53). -/
def attributesOf (x : XNode) : List (Option String × Option String) :=
  (x.children.filter (fun c => c.tag == "Attribute")).map
    (fun c => (attrGet c "name", attrGet c "type"))

/-- The main loop of `load_xml` (lines 35-64) over the root's children.
A `Class` element registers a fresh class record (overwriting any earlier
record of the same name) and possibly the root class name; an
`Aggregation` element appends to the aggregation list of the *source*
class, raising `KeyError` when that class is not yet registered; other
tags are skipped. -/
def processElements : Model → List XNode → Except PyErr Model
  | m, [] => .ok m
  | m, x :: xs =>
    if x.tag = "Class" then
      processElements
        { classes := dictSet m.classes (attrGet x "name")
            { isRoot := attrGet x "isRoot" == some "true",
              documentation := attrGet x "documentation",
              attributes := attributesOf x,
              aggregations := [] },
          root_class_name :=
            if attrGet x "isRoot" == some "true" then attrGet x "name"
            else m.root_class_name }
        xs
    else if x.tag = "Aggregation" then
      match lookupKey m.classes (attrGet x "source") with
      | some ci =>
        processElements
          { m with
              classes := dictSet m.classes (attrGet x "source")
                { ci with aggregations := ci.aggregations ++
                    [{ target := attrGet x "target",
                       sourceMultiplicity := attrGet x "sourceMultiplicity",
                       targetMultiplicity := attrGet x "targetMultiplicity" }] } }
          xs
      | none => .error (.keyError (attrGet x "source"))
    else processElements m xs

/-- What parsing the input file produced: the file was missing, the file
was not valid XML, or the parsed list of root children. -/
inductive ParseOutcome where
  | fileNotFound : ParseOutcome
  | parseError : ParseOutcome
  | parsed : List XNode → ParseOutcome

/-- Result of `load_xml`: `success` models `return True` with the built
state, `cleanFalse` models the `except FileNotFoundError` /
`except ET.ParseError` handlers printing and returning `False`, and
`uncaught` models an exception those two handlers do not catch. -/
inductive LoadOutcome where
  | success : Model → LoadOutcome
  | cleanFalse : LoadOutcome
  | uncaught : PyErr → LoadOutcome

/-- Initial generator state (`__init__`, lines 21-22). -/
def emptyModel : Model :=
  { classes := [], root_class_name := none }

/-- `load_xml` (lines 24-71): its `try` block catches only
`FileNotFoundError` and `ET.ParseError`; a `KeyError` from the loop
escapes the method. -/
def load_xml : ParseOutcome → LoadOutcome
  | .fileNotFound => .cleanFalse
  | .parseError => .cleanFalse
  | .parsed xs =>
    match processElements emptyModel xs with
    | .ok m => .success m
    | .error e => .uncaught e

/-- Discriminates the uncaught-exception outcome. -/
def isUncaught : LoadOutcome → Bool
  | .uncaught _ => true
  | _ => false

/-- Discriminates the error case of the loop. -/
def isKeyError : Except PyErr Model → Bool
  | .error _ => true
  | .ok _ => false

/-- The input contains an `Aggregation` element whose `source` attribute
names a class not declared by any earlier `Class` element (`declared`
accumulates the class names registered so far). -/
def hasUnknownSource (declared : List (Option String)) : List XNode → Bool
  | [] => false
  | x :: xs =>
    if x.tag = "Class" then hasUnknownSource (attrGet x "name" :: declared) xs
    else if x.tag = "Aggregation" then
      !(declared.contains (attrGet x "source")) || hasUnknownSource declared xs
    else hasUnknownSource declared xs

theorem containsKey_dictSet {α β : Type} [DecidableEq α] (l : List (α × β)) (a a' : α)
    (b : β) : containsKey (dictSet l a b) a' = if a = a' then true else containsKey l a' := by
  rw [containsKey, lookupKey_dictSet]
  by_cases h : a = a' <;> simp [h, containsKey]

theorem processElements_keyError (xs : List XNode) :
    ∀ (m : Model) (declared : List (Option String)),
      (∀ k, containsKey m.classes k = declared.contains k) →
      hasUnknownSource declared xs = true →
      isKeyError (processElements m xs) = true := by
  induction xs with
  | nil =>
    intro m declared _ h
    simp [hasUnknownSource] at h
  | cons x xs ih =>
    intro m declared hinv h
    by_cases hc : x.tag = "Class"
    · rw [hasUnknownSource, if_pos hc] at h
      rw [processElements, if_pos hc]
      refine ih _ _ ?_ h
      intro k
      rw [containsKey_dictSet, List.contains_cons]
      by_cases hk : attrGet x "name" = k
      · simp [hk]
      · have hk' : ¬ k = attrGet x "name" := fun hh => hk hh.symm
        simp [hk, hk', hinv k]
    · by_cases ha : x.tag = "Aggregation"
      · rw [hasUnknownSource, if_neg hc, if_pos ha] at h
        rw [processElements, if_neg hc, if_pos ha]
        cases hs : declared.contains (attrGet x "source") with
        | false =>
          have hnone : lookupKey m.classes (attrGet x "source") = none := by
            apply lookup_eq_none_of_not_containsKey
            rw [hinv, hs]
          rw [hnone]
          rfl
        | true =>
          rw [hs] at h
          simp only [Bool.not_true, Bool.false_or] at h
          have hsome : containsKey m.classes (attrGet x "source") = true := by
            rw [hinv, hs]
          obtain ⟨ci, hci⟩ := lookup_isSome_of_containsKey hsome
          rw [hci]
          refine ih _ _ ?_ h
          intro k
          rw [containsKey_dictSet]
          by_cases hk : attrGet x "source" = k
          · rw [if_pos hk, ← hk, hs]
          · rw [if_neg hk, hinv]
      · rw [hasUnknownSource, if_neg hc, if_neg ha] at h
        rw [processElements, if_neg hc, if_neg ha]
        exact ih _ _ hinv h

/-- C8: an `Aggregation` declaration whose `source` names a class not
previously declared makes `load_xml` raise an uncontrolled lookup failure
(`KeyError`), which its `FileNotFoundError` / `ParseError` handlers do
not catch, so the method neither succeeds nor returns a clean `False`. -/
theorem unknown_aggregation_source_uncaught (xs : List XNode)
    (h : hasUnknownSource [] xs = true) :
    isUncaught (load_xml (.parsed xs)) = true := by
  have hk := processElements_keyError xs emptyModel [] (fun _ => rfl) h
  rw [load_xml]
  cases hpe : processElements emptyModel xs with
  | ok m =>
    rw [hpe] at hk
    simp [isKeyError] at hk
  | error e => rfl

/-- Witness for `unknown_aggregation_source_uncaught`: a single
`Aggregation` element with source `A` and no prior `Class` element. -/
theorem unknown_aggregation_source_witness :
    isUncaught (load_xml (.parsed [XNode.mk "Aggregation"
      [("source", "A"), ("target", "B"),
       ("sourceMultiplicity", "1"), ("targetMultiplicity", "1")] []])) = true :=
  unknown_aggregation_source_uncaught
    [XNode.mk "Aggregation"
      [("source", "A"), ("target", "B"),
       ("sourceMultiplicity", "1"), ("targetMultiplicity", "1")] []]
    (by rfl)

/-- One entry of a descriptor's `parameters` list in `meta.json`. -/
structure MetaParam where
  name : String
  type : String
deriving DecidableEq

/-- One per-class descriptor of `meta.json`.  The source emits the JSON
key `class` (here `className`); the root entry carries no `min`/`max`
keys, so those fields are optional. -/
structure MetaEntry where
  className : String
  documentation : String
  isRoot : Bool
  min : Option String
  max : Option String
  parameters : List MetaParam
deriving DecidableEq

/-- `generate_config_xml` (lines 74-107): the method ignores the loaded
model entirely and writes one fixed document, the `xml_content` literal
of lines 78-99. -/
def generate_config_xml (_m : Model) : String :=
  "<BTS>\n    <id>uint32</id>\n    <name>string</name>\n    <MGMT>\n        <MetricJob>\n            <isFinished>boolean</isFinished>\n            <jobId>uint32</jobId>\n        </MetricJob>\n        <CPLANE>\n        </CPLANE>\n    </MGMT>\n    <HWE>\n        <RU>\n            <hwRevision>string</hwRevision>\n            <id>uint32</id>\n            <ipv4Address>string</ipv4Address>\n            <manufacturerName>string</manufacturerName>\n        </RU>\n    </HWE>\n    <COMM>\n    </COMM>\n</BTS>"

/-- `generate_meta_json` (lines 109-238): the method likewise ignores the
loaded model and writes the fixed `meta_data` literal of lines 113-229. -/
def generate_meta_json (_m : Model) : List MetaEntry :=
  [{ className := "MetricJob",
     documentation := "Perfomance metric job",
     isRoot := false,
     min := some "0", max := some "100",
     parameters := [{ name := "isFinished", type := "boolean" },
                    { name := "jobId", type := "uint32" }] },
   { className := "CPLANE",
     documentation := "Perfomance metric job",
     isRoot := false,
     min := some "0", max := some "1",
     parameters := [] },
   { className := "MGMT",
     documentation := "Management related",
     isRoot := false,
     min := some "1", max := some "1",
     parameters := [{ name := "MetricJob", type := "class" },
                    { name := "CPLANE", type := "class" }] },
   { className := "RU",
     documentation := "Radio Unit hardware element",
     isRoot := false,
     min := some "0", max := some "42",
     parameters := [{ name := "hwRevision", type := "string" },
                    { name := "id", type := "uint32" },
                    { name := "ipv4Address", type := "string" },
                    { name := "manufacturerName", type := "string" }] },
   { className := "HWE",
     documentation := "Hardware equipment",
     isRoot := false,
     min := some "1", max := some "1",
     parameters := [{ name := "RU", type := "class" }] },
   { className := "COMM",
     documentation := "Communication services",
     isRoot := false,
     min := some "1", max := some "1",
     parameters := [] },
   { className := "BTS",
     documentation := "Base Transmitter Station. This is the only root class",
     isRoot := true,
     min := none, max := none,
     parameters := [{ name := "id", type := "uint32" },
                    { name := "name", type := "string" },
                    { name := "MGMT", type := "class" },
                    { name := "HWE", type := "class" },
                    { name := "COMM", type := "class" }] }]

/-- A model in which class `MGMT` has an aggregation to `MetricJob` with
multiplicity `0..100` followed by one to `CPLANE` with multiplicity
`0..1` — the scenario named by the specification. -/
def mgmtScenarioModel : Model :=
  { classes :=
      [(some "MGMT",
        { isRoot := false,
          documentation := some "Management related",
          attributes := [],
          aggregations :=
            [{ target := some "MetricJob",
               sourceMultiplicity := some "0..100",
               targetMultiplicity := some "1" },
             { target := some "CPLANE",
               sourceMultiplicity := some "0..1",
               targetMultiplicity := some "1" }] })],
    root_class_name := none }

/-- C7 counterexample: for the scenario model, the emitted MGMT descriptor
carries min `"1"` and max `"1"` — the hard-coded list is oblivious to the
model's aggregations — not min `"0"` / max `"100"` as the multiplicity of
the first aggregation would dictate. -/
theorem mgmt_descriptor_min_not_zero :
    ((generate_meta_json mgmtScenarioModel).filter
        (fun e => e.className == "MGMT")).map (fun e => (e.min, e.max)) =
      [(some "1", some "1")] ∧
    (some "1" : Option String) ≠ some "0" := by
  exact ⟨rfl, by simp⟩

/-- C7 (amended): for every loaded model, the MGMT descriptor emitted by
`generate_meta_json` is the fixed entry with min `"1"`, max `"1"` and
parameters `MetricJob`, `CPLANE` (in that order, both of type `class`);
the bounds are not derived from the model's aggregations. -/
theorem mgmt_descriptor_constant (m : Model) :
    (generate_meta_json m).filter (fun e => e.className == "MGMT") =
      [{ className := "MGMT", documentation := "Management related", isRoot := false,
         min := some "1", max := some "1",
         parameters := [{ name := "MetricJob", type := "class" },
                        { name := "CPLANE", type := "class" }] }] := rfl

/-- C9: the document emission and the meta extraction are constant
functions of the loaded model — any two successfully loaded models yield
the identical document string and the identical descriptor list. -/
theorem artifacts_model_independent (xs₁ xs₂ : List XNode) (m₁ m₂ : Model)
    (h₁ : load_xml (.parsed xs₁) = .success m₁)
    (h₂ : load_xml (.parsed xs₂) = .success m₂) :
    generate_config_xml m₁ = generate_config_xml m₂ ∧
      generate_meta_json m₁ = generate_meta_json m₂ :=
  ⟨rfl, rfl⟩

/-- Witness for `artifacts_model_independent`: an empty input and an input
declaring one class load successfully into different models. -/
theorem artifacts_model_independent_witness :
    generate_config_xml emptyModel =
      generate_config_xml
        { classes := [(some "A",
            { isRoot := true, documentation := none, attributes := [],
              aggregations := [] })],
          root_class_name := some "A" } ∧
    generate_meta_json emptyModel =
      generate_meta_json
        { classes := [(some "A",
            { isRoot := true, documentation := none, attributes := [],
              aggregations := [] })],
          root_class_name := some "A" } :=
  artifacts_model_independent [] [XNode.mk "Class" [("name", "A"), ("isRoot", "true")] []]
    emptyModel
    { classes := [(some "A",
        { isRoot := true, documentation := none, attributes := [],
          aggregations := [] })],
      root_class_name := some "A" }
    rfl rfl
